import Mathlib

/-!
Verification of the core simulation of a tile-based dungeon game
(src/src/main.rs): Tile/Map model, procedural map generation by room and
tunnel carving, collision-aware entity movement, and the render
background pass. Machine integers (i32) are modelled as `Int`; the
`Vec<Vec<Tile>>` grid is modelled as a total function `Int → Int → Tile`
together with a bounds-checked lookup `map_get?` that returns `none`
exactly where the Rust `as usize` cast plus `Vec` indexing would panic
(negative coordinate or coordinate past the vector length).
-/

/-- Grid width, `MAP_WIDTH` in the source (80). -/
abbrev MAP_WIDTH : Int := 80

/-- Grid height, `MAP_HEIGHT` in the source (45). -/
abbrev MAP_HEIGHT : Int := 45

/-- A colour, as in `tcod::colors::Color` (r, g, b components). -/
structure Color where
  r : Nat
  g : Nat
  b : Nat
deriving DecidableEq, Repr

/-- `COLOUR_DARK_WALL` from the source. -/
def COLOUR_DARK_WALL : Color := ⟨0, 0, 100⟩

/-- `COLOUR_DARK_GROUND` from the source. -/
def COLOUR_DARK_GROUND : Color := ⟨50, 50, 150⟩

/-- `tcod::colors::WHITE`. -/
def WHITE : Color := ⟨255, 255, 255⟩

/-- A map cell: `struct Tile { blocked: bool, block_sight: bool }`. -/
structure Tile where
  blocked : Bool
  block_sight : Bool
deriving DecidableEq, Repr

/-- `Tile::empty()`: not blocked, not sight-blocking. -/
def Tile.empty : Tile := { blocked := false, block_sight := false }

/-- `Tile::wall()`: blocked and sight-blocking. -/
def Tile.wall : Tile := { blocked := true, block_sight := true }

/-- The grid: `type Map = Vec<Vec<Tile>>`, indexed `map[x][y]`.
Modelled as a total function on `Int` coordinates; in-bounds access is
through `map_get?` below. -/
abbrev Map := Int → Int → Tile

/-- A coordinate pair is inside the 80×45 reference grid. -/
def inBounds (x y : Int) : Prop :=
  0 ≤ x ∧ x < MAP_WIDTH ∧ 0 ≤ y ∧ y < MAP_HEIGHT

instance (x y : Int) : Decidable (inBounds x y) := by
  unfold inBounds; infer_instance

/-- `game.map[x as usize][y as usize]` with the panic made explicit:
`some` of the cell when `(x, y)` is in bounds, `none` (panic) when the
cast of a negative coordinate or an index past the vector length would
make the `Vec` indexing fault. -/
def map_get? (m : Map) (x y : Int) : Option Tile :=
  if inBounds x y then some (m x y) else none

/-- Room footprint: `struct Rect { x1, y1, x2, y2 }`. -/
structure Rect where
  x1 : Int
  y1 : Int
  x2 : Int
  y2 : Int
deriving DecidableEq, Repr

/-- `Rect::new(x, y, w, h)`: `x2 = x + w`, `y2 = y + h`. -/
def Rect.new (x y w h : Int) : Rect :=
  { x1 := x, y1 := y, x2 := x + w, y2 := y + h }

/-- `create_room(room, map)`: the loop
`for x in (room.x1+1)..room.x2 { for y in (room.y1+1)..room.y2 {
map[x][y] = Tile::empty() } }` as its effect on the grid function:
every cell strictly inside the rectangle becomes empty, everything
else keeps its value. -/
def create_room (room : Rect) (m : Map) : Map :=
  fun x y =>
    if room.x1 + 1 ≤ x ∧ x < room.x2 ∧ room.y1 + 1 ≤ y ∧ y < room.y2 then
      Tile.empty
    else
      m x y

/-- `create_h_tunnel(x1, x2, y, map)`: the loop
`for x in min(x1,x2)..(max(x1,x2)+1) { map[x][y] = Tile::empty() }`
as its effect on the grid function. -/
def create_h_tunnel (x1 x2 y : Int) (m : Map) : Map :=
  fun cx cy =>
    if min x1 x2 ≤ cx ∧ cx < max x1 x2 + 1 ∧ cy = y then
      Tile.empty
    else
      m cx cy

/-- `create_v_tunnel(y1, y2, x, map)`: the loop
`for y in min(y1,y2)..(max(y1,y2)+1) { map[x][y] = Tile::empty() }`
as its effect on the grid function. -/
def create_v_tunnel (y1 y2 x : Int) (m : Map) : Map :=
  fun cx cy =>
    if cx = x ∧ min y1 y2 ≤ cy ∧ cy < max y1 y2 + 1 then
      Tile.empty
    else
      m cx cy

/-- The all-wall grid `vec![vec![Tile::wall(); MAP_HEIGHT]; MAP_WIDTH]`
that `make_map` starts from. -/
def all_wall : Map := fun _ _ => Tile.wall

/-- `make_map()`: all-wall grid, then two rooms and one horizontal
tunnel carved in the source's order. -/
def make_map : Map :=
  create_h_tunnel 25 55 23
    (create_room (Rect.new 50 15 10 15)
      (create_room (Rect.new 20 15 10 15) all_wall))

/-- One carve operation of the generator, as §4.2 of the spec describes
the generator's public contract: a room or a tunnel. -/
inductive Carve where
  | room (r : Rect)
  | htunnel (x1 x2 y : Int)
  | vtunnel (y1 y2 x : Int)
deriving DecidableEq, Repr

/-- Apply one carve operation, dispatching to the source's carving
functions. -/
def applyCarve (c : Carve) (m : Map) : Map :=
  match c with
  | .room r => create_room r m
  | .htunnel x1 x2 y => create_h_tunnel x1 x2 y m
  | .vtunnel y1 y2 x => create_v_tunnel y1 y2 x m

/-- Apply a caller-supplied sequence of carve operations in order, as
`make_map` does with its hard-coded list. -/
def applyCarves (cs : List Carve) (m : Map) : Map :=
  cs.foldl (fun acc c => applyCarve c acc) m

/-- The cells a carve covers: a room covers its interior (boundary
rows/columns excluded), a tunnel covers its full inclusive segment. -/
def Carve.covers : Carve → Int → Int → Prop
  | .room r, x, y => r.x1 + 1 ≤ x ∧ x < r.x2 ∧ r.y1 + 1 ≤ y ∧ y < r.y2
  | .htunnel x1 x2 ty, x, y => min x1 x2 ≤ x ∧ x ≤ max x1 x2 ∧ y = ty
  | .vtunnel y1 y2 tx, x, y => x = tx ∧ min y1 y2 ≤ y ∧ y ≤ max y1 y2

instance (c : Carve) (x y : Int) : Decidable (c.covers x y) := by
  cases c <;> simp only [Carve.covers] <;> infer_instance

/-- A carve only touches in-bounds cells of the 80×45 grid. -/
def Carve.inGrid : Carve → Prop
  | .room r => 0 ≤ r.x1 ∧ r.x2 < MAP_WIDTH ∧ 0 ≤ r.y1 ∧ r.y2 < MAP_HEIGHT
  | .htunnel x1 x2 y => 0 ≤ min x1 x2 ∧ max x1 x2 < MAP_WIDTH ∧ 0 ≤ y ∧ y < MAP_HEIGHT
  | .vtunnel y1 y2 x => 0 ≤ x ∧ x < MAP_WIDTH ∧ 0 ≤ min y1 y2 ∧ max y1 y2 < MAP_HEIGHT

instance (c : Carve) : Decidable c.inGrid := by
  cases c <;> simp only [Carve.inGrid] <;> infer_instance

/-- An entity: `struct Object { x, y, glyph, color }`. -/
structure Object where
  x : Int
  y : Int
  glyph : Char
  color : Color
deriving DecidableEq, Repr

/-- `Object::new(x, y, glyph, color)`. -/
def Object.new (x y : Int) (glyph : Char) (color : Color) : Object :=
  { x := x, y := y, glyph := glyph, color := color }

/-- The game context `struct Game { map: Map }`. -/
structure Game where
  map : Map

/-- `Object::move_by(dx, dy, game)`: read
`game.map[(x+dx) as usize][(y+dy) as usize].blocked`; if the read
faults (destination out of bounds) the call panics (`none`); if the
destination is unblocked the position becomes `(x+dx, y+dy)`, else the
object is unchanged. -/
def Object.move_by (o : Object) (dx dy : Int) (game : Game) : Option Object :=
  match map_get? game.map (o.x + dx) (o.y + dy) with
  | none => none
  | some t =>
      if !t.blocked then
        some { o with x := o.x + dx, y := o.y + dy }
      else
        some o

-- Sanity checks on concrete cells of the reference map.
example : make_map 25 23 = Tile.empty := by decide
example : make_map 20 23 = Tile.wall := by decide
example : make_map 0 0 = Tile.wall := by decide
example : make_map 21 16 = Tile.empty := by decide
example : make_map 30 20 = Tile.wall := by decide
example : (Object.new 21 23 (Char.ofNat 64) WHITE).move_by (-1) 0 ⟨make_map⟩ =
    some (Object.new 21 23 (Char.ofNat 64) WHITE) := by decide

/-! ## Pointwise characterisation of carving -/

/-- One carve sets exactly the cells it covers to empty. -/
theorem applyCarve_apply (c : Carve) (m : Map) (x y : Int) :
    applyCarve c m x y = if c.covers x y then Tile.empty else m x y := by
  cases c <;>
    simp only [applyCarve, create_room, create_h_tunnel, create_v_tunnel,
      Carve.covers] <;>
    split_ifs <;> first | rfl | omega

/-- A carve sequence sets exactly the union of the covered cells to
empty and leaves every other cell of the initial grid alone. -/
theorem applyCarves_apply (cs : List Carve) (m : Map) (x y : Int) :
    applyCarves cs m x y =
      if ∃ c ∈ cs, c.covers x y then Tile.empty else m x y := by
  induction cs generalizing m with
  | nil => simp [applyCarves]
  | cons c cs ih =>
    show applyCarves cs (applyCarve c m) x y = _
    rw [ih, applyCarve_apply]
    simp only [List.mem_cons, exists_eq_or_imp]
    by_cases hc : c.covers x y
    · simp [hc]
    · by_cases hcs : ∃ c' ∈ cs, c'.covers x y <;> simp [hc, hcs]

/-! ## Claims about generation and movement -/

/-- Claim C1: for every in-bounds coordinate, a Grid generated from the
all-wall grid by a caller-supplied carve sequence has `blocked = false`
exactly at cells covered by some carved room interior or tunnel, and
`blocked = true` everywhere else. -/
theorem generated_blocked_iff_covered (cs : List Carve) (x y : Int)
    (h : inBounds x y) :
    ((applyCarves cs all_wall) x y).blocked = false ↔ ∃ c ∈ cs, c.covers x y := by
  rw [applyCarves_apply]
  split_ifs with hc
  · simp [Tile.empty, hc]
  · simp [all_wall, Tile.wall, hc]

theorem generated_blocked_iff_covered_witness :
    inBounds 25 20 ∧
    (((applyCarves [Carve.room (Rect.new 20 15 10 15)] all_wall) 25 20).blocked = false ↔
      ∃ c ∈ [Carve.room (Rect.new 20 15 10 15)], c.covers 25 20) :=
  ⟨by decide, generated_blocked_iff_covered [Carve.room (Rect.new 20 15 10 15)] 25 20 (by decide)⟩

/-- Claim C2: when the destination tile is in bounds and blocked,
`move_by` returns the object unchanged and surfaces no error. -/
theorem move_by_blocked_noop (o : Object) (dx dy : Int) (game : Game) (t : Tile)
    (hget : map_get? game.map (o.x + dx) (o.y + dy) = some t)
    (hblocked : t.blocked = true) :
    o.move_by dx dy game = some o := by
  simp [Object.move_by, hget, hblocked]

theorem move_by_blocked_noop_witness :
    map_get? make_map (21 + -1) (23 + 0) = some Tile.wall ∧
    Tile.wall.blocked = true ∧
    (Object.new 21 23 (Char.ofNat 64) WHITE).move_by (-1) 0 ⟨make_map⟩ =
      some (Object.new 21 23 (Char.ofNat 64) WHITE) :=
  ⟨by decide, by decide,
    move_by_blocked_noop (Object.new 21 23 (Char.ofNat 64) WHITE) (-1) 0 ⟨make_map⟩
      Tile.wall (by decide) (by decide)⟩

/-- Claim C3: when the destination tile is in bounds and unblocked,
`move_by` sets the position to exactly `(x + dx, y + dy)`. -/
theorem move_by_unblocked_moves (o : Object) (dx dy : Int) (game : Game) (t : Tile)
    (hget : map_get? game.map (o.x + dx) (o.y + dy) = some t)
    (hfree : t.blocked = false) :
    o.move_by dx dy game = some { o with x := o.x + dx, y := o.y + dy } := by
  simp [Object.move_by, hget, hfree]

theorem move_by_unblocked_moves_witness :
    map_get? make_map (25 + 1) (23 + 0) = some Tile.empty ∧
    Tile.empty.blocked = false ∧
    (Object.new 25 23 (Char.ofNat 64) WHITE).move_by 1 0 ⟨make_map⟩ =
      some (Object.new 26 23 (Char.ofNat 64) WHITE) :=
  ⟨by decide, by decide,
    move_by_unblocked_moves (Object.new 25 23 (Char.ofNat 64) WHITE) 1 0 ⟨make_map⟩
      Tile.empty (by decide) (by decide)⟩

/-- Claim C4: carving a room `Rect::new(x,y,w,h)` empties exactly the
interior cells strictly between the boundary rows/columns and never
writes the boundary; concretely, carving `Rect::new(20,15,10,15)` into
the all-wall grid empties exactly `(21,16)..(29,29)` while `(20,cy)`
and `(30,cy)` stay walls. -/
theorem create_room_interior_only :
    (∀ (x y w h : Int) (m : Map) (cx cy : Int),
      create_room (Rect.new x y w h) m cx cy =
        if x + 1 ≤ cx ∧ cx < x + w ∧ y + 1 ≤ cy ∧ cy < y + h then Tile.empty
        else m cx cy) ∧
    (∀ cx cy : Int,
      (create_room (Rect.new 20 15 10 15) all_wall cx cy = Tile.empty ↔
        21 ≤ cx ∧ cx ≤ 29 ∧ 16 ≤ cy ∧ cy ≤ 29)) ∧
    (∀ cy : Int,
      create_room (Rect.new 20 15 10 15) all_wall 20 cy = Tile.wall ∧
      create_room (Rect.new 20 15 10 15) all_wall 30 cy = Tile.wall) := by
  refine ⟨fun x y w h m cx cy => rfl, fun cx cy => ?_, fun cy => ?_⟩
  · simp only [create_room, Rect.new, all_wall]
    split_ifs with hc
    · exact iff_of_true rfl (by omega)
    · exact iff_of_false (by decide) (by omega)
  · refine ⟨?_, ?_⟩ <;>
      · simp only [create_room, Rect.new, all_wall]
        rw [if_neg (by omega)]

/-- Claim C5: `create_h_tunnel(x1, x2, y)` empties exactly the cells of
row `y` with column between `min(x1,x2)` and `max(x1,x2)` inclusive; in
particular `create_h_tunnel(25,55,23)` on the all-wall grid empties
exactly `(25..=55, 23)`. -/
theorem create_h_tunnel_segment_only :
    (∀ (x1 x2 y : Int) (m : Map) (cx cy : Int),
      create_h_tunnel x1 x2 y m cx cy =
        if min x1 x2 ≤ cx ∧ cx ≤ max x1 x2 ∧ cy = y then Tile.empty
        else m cx cy) ∧
    (∀ cx cy : Int,
      (create_h_tunnel 25 55 23 all_wall cx cy = Tile.empty ↔
        25 ≤ cx ∧ cx ≤ 55 ∧ cy = 23)) := by
  refine ⟨fun x1 x2 y m cx cy => ?_, fun cx cy => ?_⟩
  · simp only [create_h_tunnel]
    split_ifs <;> first | rfl | omega
  · simp only [create_h_tunnel, all_wall]
    split_ifs with hc
    · exact iff_of_true rfl (by omega)
    · exact iff_of_false (by decide) (by omega)

/-- Claim C6: carving is idempotent: applying an in-bounds carve list
twice to any grid yields the same grid as applying it once. -/
theorem applyCarves_idempotent (cs : List Carve) (m : Map)
    (h : ∀ c ∈ cs, c.inGrid) :
    applyCarves cs (applyCarves cs m) = applyCarves cs m := by
  funext x y
  rw [applyCarves_apply, applyCarves_apply]
  split_ifs <;> rfl

theorem applyCarves_idempotent_witness :
    Carve.inGrid (Carve.room (Rect.new 20 15 10 15)) ∧
    applyCarves [Carve.room (Rect.new 20 15 10 15)]
        (applyCarves [Carve.room (Rect.new 20 15 10 15)] all_wall) =
      applyCarves [Carve.room (Rect.new 20 15 10 15)] all_wall :=
  ⟨by decide,
    applyCarves_idempotent [Carve.room (Rect.new 20 15 10 15)] all_wall (by
      intro c hc
      simp only [List.mem_singleton] at hc
      subst hc
      decide)⟩

/-- Claim C8: every cell of a generated grid is exactly `Tile::wall()`
or `Tile::empty()`, so `blocked = block_sight` holds everywhere; no
mixed flag combination appears. -/
theorem generated_tile_wall_or_empty (cs : List Carve) (x y : Int) :
    ((applyCarves cs all_wall) x y = Tile.wall ∨
      (applyCarves cs all_wall) x y = Tile.empty) ∧
    ((applyCarves cs all_wall) x y).blocked =
      ((applyCarves cs all_wall) x y).block_sight := by
  rw [applyCarves_apply]
  split_ifs <;> simp [all_wall, Tile.wall, Tile.empty]

/-- The set of cells the `create_room` loop writes: the product of the
open column range `(x1+1)..x2` and the open row range `(y1+1)..y2`. -/
def roomWriteSet (r : Rect) : Finset (Int × Int) :=
  (Finset.Ico (r.x1 + 1) r.x2) ×ˢ (Finset.Ico (r.y1 + 1) r.y2)

/-- Claim C10: for a room `Rect::new(x,y,w,h)` with `w ≥ 2`, `h ≥ 2`,
the carved interior is exactly columns `x+1..x+w-1` and rows
`y+1..y+h-1`, totalling `(w-1)·(h-1)` cells, not `w·h`. -/
theorem room_interior_cell_count (x y w h : Int) (hw : 2 ≤ w) (hh : 2 ≤ h) :
    (∀ (m : Map) (cx cy : Int),
      create_room (Rect.new x y w h) m cx cy =
        if (cx, cy) ∈ roomWriteSet (Rect.new x y w h) then Tile.empty
        else m cx cy) ∧
    (∀ cx cy : Int,
      ((cx, cy) ∈ roomWriteSet (Rect.new x y w h) ↔
        x + 1 ≤ cx ∧ cx ≤ x + w - 1 ∧ y + 1 ≤ cy ∧ cy ≤ y + h - 1)) ∧
    (roomWriteSet (Rect.new x y w h)).card = (w - 1).toNat * (h - 1).toNat := by
  refine ⟨fun m cx cy => ?_, fun cx cy => ?_, ?_⟩
  · simp only [create_room, roomWriteSet, Rect.new, Finset.mem_product, Finset.mem_Ico]
    split_ifs <;> first | rfl | omega
  · simp only [roomWriteSet, Rect.new, Finset.mem_product, Finset.mem_Ico]
    omega
  · simp only [roomWriteSet, Rect.new, Finset.card_product, Int.card_Ico]
    congr 1 <;> omega

theorem room_interior_cell_count_witness :
    (2 : Int) ≤ 10 ∧ (2 : Int) ≤ 15 ∧
    (roomWriteSet (Rect.new 20 15 10 15)).card =
      ((10 : Int) - 1).toNat * ((15 : Int) - 1).toNat :=
  ⟨by decide, by decide,
    (room_interior_cell_count 20 15 10 15 (by decide) (by decide)).2.2⟩

/-! ## Render background pass -/

/-- The colour the background pass picks for one cell:
`let wall = map[x][y].block_sight; if wall { DARK_WALL } else { DARK_GROUND }`. -/
def background_color (m : Map) (x y : Int) : Color :=
  if (m x y).block_sight then COLOUR_DARK_WALL else COLOUR_DARK_GROUND

/-- The sequence of `set_char_background` writes the background pass of
`render_all` issues, in loop order (`for y in 0..MAP_HEIGHT { for x in
0..MAP_WIDTH { ... } }`): one `(x, y, colour)` event per iteration. -/
def background_writes (m : Map) : List (Int × Int × Color) :=
  (List.range MAP_HEIGHT.toNat).flatMap fun (y : Nat) =>
    (List.range MAP_WIDTH.toNat).map fun (x : Nat) =>
      ((x : Int), (y : Int), background_color m x y)

theorem countP_flatMap {α β : Type} (l : List α) (f : α → List β) (p : β → Bool) :
    (l.flatMap f).countP p = (l.map fun a => (f a).countP p).sum := by
  induction l with
  | nil => simp
  | cons a l ih => simp [List.countP_append, ih]

theorem sum_map_ite_count (b : Nat) (l : List Nat) :
    (l.map fun a => if a = b then 1 else 0).sum = l.count b := by
  induction l with
  | nil => simp
  | cons a l ih =>
    simp only [List.map_cons, List.sum_cons, ih, List.count_cons]
    by_cases hab : a = b <;> simp [hab, Nat.add_comm]

theorem countP_range_beq (n t : Nat) (h : t < n) :
    (List.range n).countP (fun a => a == t) = 1 := by
  have hm := List.count_eq_one_of_mem (List.nodup_range n) (List.mem_range.mpr h)
  simpa [List.count] using hm

theorem countP_map_row {α : Type} (l : List Nat) (f : Nat → α) (p : α → Bool)
    (g : Nat → Bool) (h : ∀ a ∈ l, p (f a) = g a) :
    (l.map f).countP p = l.countP g := by
  induction l with
  | nil => rfl
  | cons a l ih =>
    simp only [List.map_cons, List.countP_cons, h a (List.mem_cons_self a l),
      ih fun b hb => h b (List.mem_cons_of_mem a hb)]

theorem countP_bg_row (m : Map) (x y : Int) (hx0 : 0 ≤ x) (hxW : x < MAP_WIDTH)
    (c : Nat) :
    ((List.range MAP_WIDTH.toNat).map fun (a : Nat) =>
        ((a : Int), (c : Int), background_color m a c)).countP
      (fun e => e.1 == x && e.2.1 == y) = if (c : Int) = y then 1 else 0 := by
  have hx80 : x < 80 := hxW
  split_ifs with hcy
  · refine (countP_map_row _ _ _ (fun a => a == x.toNat) ?_).trans
      (countP_range_beq _ _ (show x.toNat < 80 by omega))
    intro a _
    show (((a : Int) == x) && ((c : Int) == y)) = (a == x.toNat)
    by_cases hax : a = x.toNat
    · subst hax
      rw [Int.toNat_of_nonneg hx0, hcy]
      simp
    · have h1 : (((a : Int)) == x) = false := by
        rw [beq_eq_false_iff_ne]
        omega
      have h2 : (a == x.toNat) = false := by
        rw [beq_eq_false_iff_ne]
        exact hax
      rw [h1, h2, Bool.false_and]
  · refine List.countP_eq_zero.mpr ?_
    intro e he
    obtain ⟨a, ha, rfl⟩ := List.mem_map.mp he
    show ¬(((a : Int) == x) && ((c : Int) == y)) = true
    simp [hcy]

/-- Claim C7: the background pass writes a background colour to every
in-bounds cell exactly once, dark-wall where `block_sight` holds and
dark-ground elsewhere. -/
theorem background_pass_paints_each_cell (m : Map) (x y : Int) (h : inBounds x y) :
    (background_writes m).countP (fun e => e.1 == x && e.2.1 == y) = 1 ∧
    (x, y, background_color m x y) ∈ background_writes m := by
  obtain ⟨hx0, hxW, hy0, hyH⟩ := h
  have hx80 : x < 80 := hxW
  have hy45 : y < 45 := hyH
  constructor
  · rw [background_writes, countP_flatMap]
    have hrows : ∀ c ∈ List.range MAP_HEIGHT.toNat,
        (((List.range MAP_WIDTH.toNat).map fun (a : Nat) =>
            ((a : Int), (c : Int), background_color m a c)).countP
          (fun e => e.1 == x && e.2.1 == y)) = if c = y.toNat then 1 else 0 := by
      intro c _
      rw [countP_bg_row m x y hx0 hxW c]
      by_cases hcy : (c : Int) = y
      · rw [if_pos hcy, if_pos (by omega)]
      · rw [if_neg hcy, if_neg (by omega)]
    rw [List.map_congr_left hrows, sum_map_ite_count]
    exact List.count_eq_one_of_mem (List.nodup_range _)
      (List.mem_range.mpr (show y.toNat < 45 by omega))
  · rw [background_writes]
    refine List.mem_flatMap.mpr
      ⟨y.toNat, List.mem_range.mpr (show y.toNat < 45 by omega), ?_⟩
    refine List.mem_map.mpr
      ⟨x.toNat, List.mem_range.mpr (show x.toNat < 80 by omega), ?_⟩
    rw [Int.toNat_of_nonneg hx0, Int.toNat_of_nonneg hy0]

theorem background_pass_paints_each_cell_witness :
    inBounds 3 4 ∧
    ((background_writes all_wall).countP
        (fun e => e.1 == (3 : Int) && e.2.1 == (4 : Int)) = 1 ∧
      ((3 : Int), (4 : Int), background_color all_wall 3 4) ∈ background_writes all_wall) :=
  ⟨by decide, background_pass_paints_each_cell all_wall 3 4 (by decide)⟩

/-! ## Walk safety on the reference map -/

/-- The session's game context `Game { map: make_map() }` built in
`main`. -/
def game0 : Game := { map := make_map }

theorem game0_map : game0.map = make_map := rfl

/-- The four unit deltas `handle_keys` can issue: Up, Down, Left,
Right map to `(0,-1)`, `(0,1)`, `(-1,0)`, `(1,0)`. -/
def unit_moves : List (Int × Int) := [(0, -1), (0, 1), (-1, 0), (1, 0)]

/-- The player `Object::new(25, 23, '@', WHITE)` created in `main`. -/
def player_start : Object := Object.new 25 23 (Char.ofNat 64) WHITE

/-- Iterated `move_by` over a list of deltas, propagating a panic. -/
def walk (game : Game) : List (Int × Int) → Object → Option Object
  | [], o => some o
  | d :: ds, o =>
    match o.move_by d.1 d.2 game with
    | none => none
    | some o2 => walk game ds o2

/-- Strictly inside the 80×45 grid: off the one-cell border ring. -/
def inInterior (x y : Int) : Prop := 1 ≤ x ∧ x ≤ 78 ∧ 1 ≤ y ∧ y ≤ 43

instance (x y : Int) : Decidable (inInterior x y) := by
  unfold inInterior; infer_instance

/-- Every cell of the border ring of the reference map is a wall: no
room interior or tunnel of `make_map` reaches the border. -/
theorem make_map_border_wall (x y : Int)
    (hb : x = 0 ∨ x = 79 ∨ y = 0 ∨ y = 44) :
    (make_map x y).blocked = true := by
  simp only [make_map, create_h_tunnel, create_room, all_wall, Rect.new]
  split_ifs <;> first | rfl | (exfalso; omega)

/-- One unit move from an interior position neither faults nor leaves
the interior: the destination is in bounds, and if it is on the border
it is a wall, so the move is rejected. -/
theorem move_by_unit_step (o : Object) (dx dy : Int)
    (ho : inInterior o.x o.y) (hd : (dx, dy) ∈ unit_moves) :
    ∃ o2, o.move_by dx dy game0 = some o2 ∧ inInterior o2.x o2.y := by
  have ho2 : 1 ≤ o.x ∧ o.x ≤ 78 ∧ 1 ≤ o.y ∧ o.y ≤ 43 := ho
  have hdelta : (dx = 0 ∧ dy = -1) ∨ (dx = 0 ∧ dy = 1) ∨
      (dx = -1 ∧ dy = 0) ∨ (dx = 1 ∧ dy = 0) := by
    simp only [unit_moves, List.mem_cons, List.not_mem_nil, or_false,
      Prod.mk.injEq] at hd
    exact hd
  have hbnd : 0 ≤ o.x + dx ∧ o.x + dx < 80 ∧ 0 ≤ o.y + dy ∧ o.y + dy < 45 := by
    omega
  have hget : map_get? make_map (o.x + dx) (o.y + dy) =
      some (make_map (o.x + dx) (o.y + dy)) := by
    unfold map_get?
    exact if_pos hbnd
  by_cases hblk : (make_map (o.x + dx) (o.y + dy)).blocked = true
  · refine ⟨o, ?_, ho⟩
    simp [Object.move_by, game0_map, hget, hblk]
  · have hbf : (make_map (o.x + dx) (o.y + dy)).blocked = false :=
      Bool.eq_false_iff.mpr hblk
    have hdest : ¬(o.x + dx = 0 ∨ o.x + dx = 79 ∨ o.y + dy = 0 ∨ o.y + dy = 44) := by
      intro hcontra
      rw [make_map_border_wall _ _ hcontra] at hbf
      exact Bool.noConfusion hbf
    refine ⟨{ o with x := o.x + dx, y := o.y + dy }, ?_, ?_⟩
    · simp [Object.move_by, game0_map, hget, hbf]
    · show 1 ≤ o.x + dx ∧ o.x + dx ≤ 78 ∧ 1 ≤ o.y + dy ∧ o.y + dy ≤ 43
      omega

theorem walk_interior (ds : List (Int × Int)) (hds : ∀ d ∈ ds, d ∈ unit_moves) :
    ∀ o : Object, inInterior o.x o.y →
      ∃ o2, walk game0 ds o = some o2 ∧ inInterior o2.x o2.y := by
  induction ds with
  | nil => exact fun o ho => ⟨o, rfl, ho⟩
  | cons d ds ih =>
    intro o ho
    obtain ⟨o1, hstep, hint⟩ :=
      move_by_unit_step o d.1 d.2 ho (hds d (List.mem_cons_self d ds))
    obtain ⟨o2, hwalk, hint2⟩ :=
      ih (fun e he => hds e (List.mem_cons_of_mem d he)) o1 hint
    refine ⟨o2, ?_, hint2⟩
    simp only [walk, hstep]
    exact hwalk

/-- Claim C9: on the reference map, starting at `(25, 23)`, every
sequence of unit directional moves applied through `move_by` never
faults (no out-of-bounds index, no negative cast) and keeps the player
strictly inside the grid interior `1 ≤ x ≤ 78`, `1 ≤ y ≤ 43`. -/
theorem player_moves_stay_interior (ds : List (Int × Int))
    (hds : ∀ d ∈ ds, d ∈ unit_moves) :
    ∃ o2, walk game0 ds player_start = some o2 ∧
      1 ≤ o2.x ∧ o2.x ≤ 78 ∧ 1 ≤ o2.y ∧ o2.y ≤ 43 := by
  obtain ⟨o2, hw, hint⟩ := walk_interior ds hds player_start (by decide)
  exact ⟨o2, hw, hint⟩

theorem player_moves_stay_interior_witness :
    (((0 : Int), (-1 : Int)) ∈ unit_moves) ∧ (((1 : Int), (0 : Int)) ∈ unit_moves) ∧
    ∃ o2, walk game0 [(0, -1), (1, 0)] player_start = some o2 ∧
      1 ≤ o2.x ∧ o2.x ≤ 78 ∧ 1 ≤ o2.y ∧ o2.y ≤ 43 :=
  ⟨by decide, by decide,
    player_moves_stay_interior [(0, -1), (1, 0)] (by decide)⟩
